import Mathlib

/-!
Formal model of the core of `drone-gemini-cli-plugin` (Go), covering:
output parsing (`plugin/output_parser.go`), auth-mode detection
(`plugin/config.go`), environment/argument construction and execution
outcome classification (`plugin/cli_executor.go`), and cost estimation
(`plugin/plugin.go`).

Modelling conventions:
* Go strings are Lean `String`s; the Go `strings` helpers used by the code
  (`TrimSpace`, `Split` on a newline, `ToLower`, `Contains`, `HasPrefix`)
  are re-implemented below over `List Char`, for the ASCII inputs relevant
  here (Unicode space classes beyond ASCII whitespace are not modelled).
* `encoding/json` is modelled by an executable JSON value parser plus
  per-struct decoders mirroring Go's unmarshalling into the concrete
  target structs (unknown object keys ignored, absent or `null` fields
  keep the Go zero value, a type mismatch is a decode error).  String
  escapes are modelled for the common single-character escapes; `\uXXXX`
  escapes and the full JSON number grammar are not needed by any input
  considered and are handled conservatively.
* Go `float64` pricing arithmetic is modelled as exact rational
  arithmetic over `ℚ`; all quantities involved are exactly representable
  and no comparison in the claims is sensitive to rounding.
* Go maps become association lists in declaration order; Go map iteration
  order is unspecified, and no theorem below depends on the order chosen.
-/

/-- Character class of Go's `unicode.IsSpace` restricted to ASCII, the
alphabet of all inputs considered. -/
def isSpaceChar (c : Char) : Bool :=
  c == ' ' || c == '\t' || c == '\n' || c == '\x0d' || c == '\x0b' || c == '\x0c'

/-- Model of Go `strings.TrimSpace`. -/
def goTrimSpace (s : String) : String :=
  String.mk (((s.toList.dropWhile isSpaceChar).reverse.dropWhile isSpaceChar).reverse)

/-- Splits a character list at each newline character; auxiliary for
Go `strings.Split(s, "\n")`. -/
def splitNLAux : List Char → List Char → List (List Char)
  | acc, [] => [acc.reverse]
  | acc, c :: cs => if c == '\n' then acc.reverse :: splitNLAux [] cs else splitNLAux (c :: acc) cs

/-- Model of Go `strings.Split(s, "\n")`. -/
def goSplitLines (s : String) : List String :=
  (splitNLAux [] s.toList).map String.mk

/-- Model of Go `strings.ToLower` for ASCII. -/
def goToLower (s : String) : String :=
  String.mk (s.toList.map Char.toLower)

/-- List-level check that `pre` begins `l`. -/
def beginsWith : List Char → List Char → Bool
  | [], _ => true
  | _ :: _, [] => false
  | p :: ps, c :: cs => p == c && beginsWith ps cs

/-- Model of Go `strings.Contains` (substring occurrence). -/
def goContainsSub (hay needle : String) : Bool :=
  go hay.toList needle.toList
where
  go : List Char → List Char → Bool
    | h, n => if beginsWith n h then true else
        match h with
        | [] => false
        | _ :: hs => go hs n

/-- Model of Go `strings.HasPrefix`. -/
def goStartsWith (s pre : String) : Bool :=
  beginsWith pre.toList s.toList

/-- Model of Unix `filepath.IsAbs`. -/
def goIsAbsPath (s : String) : Bool :=
  goStartsWith s ("/")

/-- JSON values, the target of the `encoding/json` model.  Numbers keep
their raw numeral text; Go decodes a numeral into an `int` field by
integer parsing and rejects non-integer numerals, which
`String.toInt?` reproduces. -/
inductive Json where
  | null
  | bool (b : Bool)
  | num (raw : String)
  | str (s : String)
  | arr (elems : List Json)
  | obj (fields : List (String × Json))

/-- Skips ASCII whitespace. -/
def skipWs : List Char → List Char
  | [] => []
  | c :: cs => if isSpaceChar c then skipWs cs else c :: cs

/-- Parses the body of a JSON string literal (opening quote already
consumed), handling the single-character escapes; `\uXXXX` escapes do not
occur in any input considered and are rejected. -/
def parseStringAux : List Char → List Char → Option (String × List Char)
  | acc, '"' :: rest => some (String.mk acc.reverse, rest)
  | acc, '\\' :: c :: rest =>
    if c == '"' then parseStringAux ('"' :: acc) rest
    else if c == '\\' then parseStringAux ('\\' :: acc) rest
    else if c == '/' then parseStringAux ('/' :: acc) rest
    else if c == 'n' then parseStringAux ('\n' :: acc) rest
    else if c == 't' then parseStringAux ('\t' :: acc) rest
    else if c == 'r' then parseStringAux ('\x0d' :: acc) rest
    else none
  | acc, c :: rest => parseStringAux (c :: acc) rest
  | _, [] => none

/-- Numeral alphabet of JSON numbers. -/
def isNumChar (c : Char) : Bool :=
  c.isDigit || c == '-' || c == '+' || c == '.' || c == 'e' || c == 'E'

/-- Shape check on a numeral token: a leading sign must be followed by a
digit (the full JSON number grammar is not needed by any input
considered). -/
def validNumTok : List Char → Bool
  | [] => false
  | '-' :: c :: _ => c.isDigit
  | '-' :: [] => false
  | c :: _ => c.isDigit

/-- Parses a JSON number token. -/
def parseNum (cs : List Char) : Option (Json × List Char) :=
  let p := cs.span isNumChar
  if validNumTok p.1 then some (Json.num (String.mk p.1), p.2) else none

/-- Parses the comma-separated elements of a non-empty JSON array, the
element parser being supplied; fuelled by the remaining input length. -/
def parseArrAux (pv : List Char → Option (Json × List Char)) :
    Nat → List Json → List Char → Option (List Json × List Char)
  | 0, _, _ => none
  | fuel + 1, acc, cs =>
    match pv (skipWs cs) with
    | none => none
    | some (j, rest) =>
      match skipWs rest with
      | ',' :: rest2 => parseArrAux pv fuel (j :: acc) rest2
      | ']' :: rest2 => some ((j :: acc).reverse, rest2)
      | _ => none

/-- Parses the `"key": value` members of a non-empty JSON object, the
value parser being supplied; fuelled by the remaining input length. -/
def parseObjAux (pv : List Char → Option (Json × List Char)) :
    Nat → List (String × Json) → List Char → Option (List (String × Json) × List Char)
  | 0, _, _ => none
  | fuel + 1, acc, cs =>
    match skipWs cs with
    | '"' :: rest =>
      match parseStringAux [] rest with
      | none => none
      | some (key, rest1) =>
        match skipWs rest1 with
        | ':' :: rest2 =>
          match pv (skipWs rest2) with
          | none => none
          | some (j, rest3) =>
            match skipWs rest3 with
            | ',' :: rest4 => parseObjAux pv fuel ((key, j) :: acc) rest4
            | '}' :: rest4 => some (((key, j) :: acc).reverse, rest4)
            | _ => none
        | _ => none
    | _ => none

/-- Parses one JSON value; the fuel bounds the nesting depth. -/
def parseVal : Nat → List Char → Option (Json × List Char)
  | 0, _ => none
  | fuel + 1, cs =>
    match skipWs cs with
    | 'n' :: 'u' :: 'l' :: 'l' :: rest => some (Json.null, rest)
    | 't' :: 'r' :: 'u' :: 'e' :: rest => some (Json.bool true, rest)
    | 'f' :: 'a' :: 'l' :: 's' :: 'e' :: rest => some (Json.bool false, rest)
    | '"' :: rest => (parseStringAux [] rest).map (fun p => (Json.str p.1, p.2))
    | '[' :: rest =>
      match skipWs rest with
      | ']' :: rest2 => some (Json.arr [], rest2)
      | cs2 => (parseArrAux (parseVal fuel) (cs2.length + 1) [] cs2).map
          (fun p => (Json.arr p.1, p.2))
    | '{' :: rest =>
      match skipWs rest with
      | '}' :: rest2 => some (Json.obj [], rest2)
      | cs2 => (parseObjAux (parseVal fuel) (cs2.length + 1) [] cs2).map
          (fun p => (Json.obj p.1, p.2))
    | cs2 => parseNum cs2

/-- Parses a complete JSON document: one value with only whitespace
around it.  Models the syntactic acceptance of `encoding/json`. -/
def parseJsonText (s : String) : Option Json :=
  let cs := s.toList
  match parseVal (cs.length + 1) cs with
  | some (j, rest) => if skipWs rest = [] then some j else none
  | none => none

/-- `APIStats` from `output_parser.go`. -/
structure APIStats where
  TotalRequests : Int := 0
  TotalErrors : Int := 0
  TotalLatencyMs : Int := 0
deriving DecidableEq, Repr

/-- `TokenStats` from `output_parser.go`. -/
structure TokenStats where
  Prompt : Int := 0
  Candidates : Int := 0
  Total : Int := 0
  Cached : Int := 0
  Thoughts : Int := 0
  Tool : Int := 0
deriving DecidableEq, Repr

/-- `ModelStats` from `output_parser.go`. -/
structure ModelStats where
  API : APIStats := {}
  Tokens : TokenStats := {}
deriving DecidableEq, Repr

/-- `ToolDecisions` from `output_parser.go`. -/
structure ToolDecisions where
  Accept : Int := 0
  Reject : Int := 0
  Modify : Int := 0
  AutoAccept : Int := 0
deriving DecidableEq, Repr

/-- `ToolDetail` from `output_parser.go`. -/
structure ToolDetail where
  Count : Int := 0
  Success : Int := 0
  Fail : Int := 0
  DurationMs : Int := 0
  Decisions : ToolDecisions := {}
deriving DecidableEq, Repr

/-- `ToolStats` from `output_parser.go`; the Go `map[string]ToolDetail`
becomes an association list. -/
structure ToolStats where
  TotalCalls : Int := 0
  TotalSuccess : Int := 0
  TotalFail : Int := 0
  TotalDurationMs : Int := 0
  TotalDecisions : ToolDecisions := {}
  ByName : List (String × ToolDetail) := []
deriving DecidableEq, Repr

/-- `FileStats` from `output_parser.go`. -/
structure FileStats where
  TotalLinesAdded : Int := 0
  TotalLinesRemoved : Int := 0
deriving DecidableEq, Repr

/-- `CLIStats` from `output_parser.go`; the Go `map[string]ModelStats`
becomes an association list. -/
structure CLIStats where
  Models : List (String × ModelStats) := []
  Tools : ToolStats := {}
  Files : FileStats := {}
deriving DecidableEq, Repr

/-- `CLIError` from `output_parser.go`. -/
structure CLIError where
  type : String := ""
  message : String := ""
  code : Int := 0
deriving DecidableEq, Repr

/-- `CLIResponse` from `output_parser.go`; Go nil-able pointers become
`Option`. -/
structure CLIResponse where
  response : String := ""
  stats : Option CLIStats := none
  error : Option CLIError := none
deriving DecidableEq, Repr

/-- `StreamEvent` from `output_parser.go`.  The Go
`map[string]interface{}` parameters field holds arbitrary JSON values.
Defaults are the Go zero values, the state `json.Unmarshal` starts
from. -/
structure StreamEvent where
  type : String := ""
  timestamp : String := ""
  session_id : String := ""
  model : String := ""
  role : String := ""
  content : String := ""
  delta : Bool := false
  tool_name : String := ""
  tool_id : String := ""
  parameters : List (String × Json) := []
  status : String := ""
  output : String := ""
  stats : Option CLIStats := none

/-- Fetches an object member; Go's unmarshaller matches the JSON key
against the struct tag (all inputs considered use the exact tag). -/
def getField (fields : List (String × Json)) (key : String) : Option Json :=
  fields.lookup key

/-- Decodes a string-typed struct field: absent or `null` keeps the zero
value, a non-string value is a type error. -/
def decStrF (fields : List (String × Json)) (key : String) : Option String :=
  match getField fields key with
  | none => some ("")
  | some Json.null => some ("")
  | some (Json.str s) => some s
  | some _ => none

/-- Accumulating decimal digit parser; fails on any non-digit. -/
def digitsToNatAux : Nat → List Char → Option Nat
  | acc, [] => some acc
  | acc, c :: cs =>
    if c.isDigit then digitsToNatAux (acc * 10 + (c.toNat - 48)) cs else none

/-- Parses a non-empty all-digit list as a natural number. -/
def digitsToNat : List Char → Option Nat
  | [] => none
  | l => digitsToNatAux 0 l

/-- Parses an optionally negated decimal integer, the integer-numeral
acceptance of Go when decoding a JSON number into an `int` field. -/
def strToInt (s : String) : Option Int :=
  match s.toList with
  | '-' :: rest => (digitsToNat rest).map (fun n => -(n : Int))
  | l => (digitsToNat l).map Int.ofNat

/-- Decodes an int-typed struct field; a non-integer numeral is a type
error, as in Go. -/
def decIntF (fields : List (String × Json)) (key : String) : Option Int :=
  match getField fields key with
  | none => some 0
  | some Json.null => some 0
  | some (Json.num raw) => strToInt raw
  | some _ => none

/-- Decodes a bool-typed struct field. -/
def decBoolF (fields : List (String × Json)) (key : String) : Option Bool :=
  match getField fields key with
  | none => some false
  | some Json.null => some false
  | some (Json.bool b) => some b
  | some _ => none

/-- Decodes an embedded (non-pointer) struct field: absent or `null`
keeps the zero value, otherwise the supplied decoder runs. -/
def decNestedF (α : Type) (decode : Json → Option α) (dflt : α)
    (fields : List (String × Json)) (key : String) : Option α :=
  match getField fields key with
  | none => some dflt
  | some Json.null => some dflt
  | some j => decode j

/-- Decoder for `ToolDecisions`. -/
def decodeToolDecisions (j : Json) : Option ToolDecisions :=
  match j with
  | Json.obj fs => do
    let a ← decIntF fs ("accept")
    let r ← decIntF fs ("reject")
    let m ← decIntF fs ("modify")
    let aa ← decIntF fs ("auto_accept")
    pure { Accept := a, Reject := r, Modify := m, AutoAccept := aa }
  | _ => none

/-- Decoder for `ToolDetail`. -/
def decodeToolDetail (j : Json) : Option ToolDetail :=
  match j with
  | Json.obj fs => do
    let c ← decIntF fs ("count")
    let s ← decIntF fs ("success")
    let f ← decIntF fs ("fail")
    let d ← decIntF fs ("durationMs")
    let dec ← decNestedF ToolDecisions decodeToolDecisions {} fs ("decisions")
    pure { Count := c, Success := s, Fail := f, DurationMs := d, Decisions := dec }
  | _ => none

/-- Decoder for a `map[string]ToolDetail` field. -/
def decodeToolDetailMap (j : Json) : Option (List (String × ToolDetail)) :=
  match j with
  | Json.obj fs => fs.mapM (fun kv => (decodeToolDetail kv.2).map (fun d => (kv.1, d)))
  | _ => none

/-- Decoder for `ToolStats`. -/
def decodeToolStats (j : Json) : Option ToolStats :=
  match j with
  | Json.obj fs => do
    let tc ← decIntF fs ("totalCalls")
    let ts ← decIntF fs ("totalSuccess")
    let tf ← decIntF fs ("totalFail")
    let td ← decIntF fs ("totalDurationMs")
    let dec ← decNestedF ToolDecisions decodeToolDecisions {} fs ("totalDecisions")
    let bn ← decNestedF (List (String × ToolDetail)) decodeToolDetailMap [] fs ("byName")
    pure { TotalCalls := tc, TotalSuccess := ts, TotalFail := tf,
           TotalDurationMs := td, TotalDecisions := dec, ByName := bn }
  | _ => none

/-- Decoder for `APIStats`. -/
def decodeAPIStats (j : Json) : Option APIStats :=
  match j with
  | Json.obj fs => do
    let r ← decIntF fs ("totalRequests")
    let e ← decIntF fs ("totalErrors")
    let l ← decIntF fs ("totalLatencyMs")
    pure { TotalRequests := r, TotalErrors := e, TotalLatencyMs := l }
  | _ => none

/-- Decoder for `TokenStats`. -/
def decodeTokenStats (j : Json) : Option TokenStats :=
  match j with
  | Json.obj fs => do
    let p ← decIntF fs ("prompt")
    let c ← decIntF fs ("candidates")
    let t ← decIntF fs ("total")
    let ca ← decIntF fs ("cached")
    let th ← decIntF fs ("thoughts")
    let tl ← decIntF fs ("tool")
    pure { Prompt := p, Candidates := c, Total := t, Cached := ca, Thoughts := th, Tool := tl }
  | _ => none

/-- Decoder for `ModelStats`. -/
def decodeModelStats (j : Json) : Option ModelStats :=
  match j with
  | Json.obj fs => do
    let a ← decNestedF APIStats decodeAPIStats {} fs ("api")
    let t ← decNestedF TokenStats decodeTokenStats {} fs ("tokens")
    pure { API := a, Tokens := t }
  | _ => none

/-- Decoder for a `map[string]ModelStats` field. -/
def decodeModelStatsMap (j : Json) : Option (List (String × ModelStats)) :=
  match j with
  | Json.obj fs => fs.mapM (fun kv => (decodeModelStats kv.2).map (fun d => (kv.1, d)))
  | _ => none

/-- Decoder for `FileStats`. -/
def decodeFileStats (j : Json) : Option FileStats :=
  match j with
  | Json.obj fs => do
    let a ← decIntF fs ("totalLinesAdded")
    let r ← decIntF fs ("totalLinesRemoved")
    pure { TotalLinesAdded := a, TotalLinesRemoved := r }
  | _ => none

/-- Decoder for `CLIStats`. -/
def decodeCLIStats (j : Json) : Option CLIStats :=
  match j with
  | Json.obj fs => do
    let m ← decNestedF (List (String × ModelStats)) decodeModelStatsMap [] fs ("models")
    let t ← decNestedF ToolStats decodeToolStats {} fs ("tools")
    let f ← decNestedF FileStats decodeFileStats {} fs ("files")
    pure { Models := m, Tools := t, Files := f }
  | _ => none

/-- Decodes a pointer-typed struct field: absent or `null` leaves the
pointer nil, otherwise the pointee decoder runs. -/
def decPtrF (α : Type) (decode : Json → Option α)
    (fields : List (String × Json)) (key : String) : Option (Option α) :=
  match getField fields key with
  | none => some none
  | some Json.null => some none
  | some j => (decode j).map some

/-- Decoder for `CLIError`. -/
def decodeCLIError (j : Json) : Option CLIError :=
  match j with
  | Json.obj fs => do
    let t ← decStrF fs ("type")
    let m ← decStrF fs ("message")
    let c ← decIntF fs ("code")
    pure { type := t, message := m, code := c }
  | _ => none

/-- Decoder for `CLIResponse`; `json.Unmarshal` into a struct requires a
top-level object. -/
def decodeCLIResponse (j : Json) : Option CLIResponse :=
  match j with
  | Json.obj fs => do
    let r ← decStrF fs ("response")
    let s ← decPtrF CLIStats decodeCLIStats fs ("stats")
    let e ← decPtrF CLIError decodeCLIError fs ("error")
    pure { response := r, stats := s, error := e }
  | _ => none

/-- Decoder for a `map[string]interface{}` field: any object is kept
verbatim as an association of JSON values. -/
def decodeParams (j : Json) : Option (List (String × Json)) :=
  match j with
  | Json.obj fs => some fs
  | _ => none

/-- Decoder for `StreamEvent`. -/
def decodeStreamEvent (j : Json) : Option StreamEvent :=
  match j with
  | Json.obj fs => do
    let ty ← decStrF fs ("type")
    let ts ← decStrF fs ("timestamp")
    let sid ← decStrF fs ("session_id")
    let mo ← decStrF fs ("model")
    let ro ← decStrF fs ("role")
    let co ← decStrF fs ("content")
    let de ← decBoolF fs ("delta")
    let tn ← decStrF fs ("tool_name")
    let ti ← decStrF fs ("tool_id")
    let pa ← decNestedF (List (String × Json)) decodeParams [] fs ("parameters")
    let st ← decStrF fs ("status")
    let ou ← decStrF fs ("output")
    let sa ← decPtrF CLIStats decodeCLIStats fs ("stats")
    pure { type := ty, timestamp := ts, session_id := sid, model := mo,
           role := ro, content := co, delta := de, tool_name := tn,
           tool_id := ti, parameters := pa, status := st, output := ou, stats := sa }
  | _ => none

/-- Model of `json.Unmarshal([]byte(s), &response)` for `CLIResponse`:
`none` is a non-nil unmarshal error. -/
def jsonUnmarshalCLIResponse (s : String) : Option CLIResponse :=
  (parseJsonText s).bind decodeCLIResponse

/-- Model of `json.Unmarshal([]byte(line), &event)` for `StreamEvent`. -/
def jsonUnmarshalStreamEvent (s : String) : Option StreamEvent :=
  (parseJsonText s).bind decodeStreamEvent

/-- The `ErrOutputParsing`-wrapped errors of `output_parser.go`; the
detail string is the wrapped context. -/
inductive ParseErr where
  | outputParsing (detail : String)
deriving DecidableEq, Repr

/-- `OutputParser.ParseJSON` from `output_parser.go`: trim, reject empty,
unmarshal, reject unmarshal failure. -/
def ParseJSON (output : String) : Except ParseErr CLIResponse :=
  let out := goTrimSpace output
  if out = "" then Except.error (ParseErr.outputParsing ("empty output"))
  else
    match jsonUnmarshalCLIResponse out with
    | none => Except.error (ParseErr.outputParsing ("unmarshal error"))
    | some r => Except.ok r

/-- One iteration of the `ParseStreamJSON` loop body after a line has
unmarshalled into `event`: append the event, then apply the two
final-response extraction rules of `output_parser.go` lines 164-177. -/
def processStreamEvent (acc : List StreamEvent × Option CLIResponse)
    (event : StreamEvent) : List StreamEvent × Option CLIResponse :=
  let events := acc.1 ++ [event]
  let fr : Option CLIResponse :=
    if event.type = "result" then
      some { response := "", stats := event.stats, error := none }
    else acc.2
  let fr : Option CLIResponse :=
    if event.type = "message" ∧ event.role = "assistant" ∧ event.delta = false then
      some { fr.getD {} with response := event.content }
    else fr
  (events, fr)

/-- The line loop of `ParseStreamJSON`: blank lines and lines that fail
to unmarshal are skipped. -/
def parseStreamCore (lines : List String) : List StreamEvent × Option CLIResponse :=
  lines.foldl
    (fun acc line =>
      let l := goTrimSpace line
      if l = "" then acc
      else
        match jsonUnmarshalStreamEvent l with
        | none => acc
        | some ev => processStreamEvent acc ev)
    ([], none)

/-- `OutputParser.ParseStreamJSON` from `output_parser.go`; the third
component is the returned Go `error`, which the source constructs as
`nil` on every path. -/
def ParseStreamJSON (output : String) :
    List StreamEvent × Option CLIResponse × Option ParseErr :=
  let r := parseStreamCore (goSplitLines (goTrimSpace output))
  (r.1, r.2, none)

/-- `OutputParser.ParseText` from `output_parser.go`. -/
def ParseText (output : String) : CLIResponse :=
  { response := goTrimSpace output, stats := none, error := none }

/-- `Config` from `config.go` (the externally supplied Settings object).
Field defaults are the Go zero values. -/
structure Config where
  Prompt : String := ""
  Target : String := ""
  Model : String := ""
  OutputFormat : String := ""
  Yolo : Bool := false
  ApprovalMode : String := ""
  IncludeDirs : String := ""
  Debug : Bool := false
  Timeout : Int := 0
  GitDiff : Bool := false
  GitCommitSHA : String := ""
  StdinInput : String := ""
  APIKey : String := ""
  GCPProject : String := ""
  GCPLocation : String := ""
  GCPCredentials : String := ""
deriving DecidableEq, Repr

/-- `AuthMode` from `config.go`. -/
inductive AuthMode where
  | authModeNone
  | authModeGeminiAPIKey
  | authModeVertexAI
deriving DecidableEq, Repr

/-- `Config.DetectAuthMode` from `config.go` lines 78-95. -/
def Config.DetectAuthMode (c : Config) : AuthMode :=
  if c.APIKey ≠ "" ∧ c.GCPProject ≠ "" then AuthMode.authModeVertexAI
  else if c.GCPCredentials ≠ "" ∧ c.GCPProject ≠ "" then AuthMode.authModeVertexAI
  else if c.APIKey ≠ "" then AuthMode.authModeGeminiAPIKey
  else AuthMode.authModeNone

/-- The credential path computed inside `buildEnv` for the
`GOOGLE_APPLICATION_CREDENTIALS` variable.  The filesystem effects are
supplied as parameters: `tmpOk`/`tmpPath` stand for the outcome of
`os.CreateTemp` (on failure the Go code leaves `credPath` as the raw
content), and `absOf` stands for `filepath.Abs`. -/
def resolveCredPath (tmpOk : Bool) (tmpPath : String) (absOf : String → String)
    (creds : String) : String :=
  let credPath := if goStartsWith (goTrimSpace creds) ("\x7b") then
      (if tmpOk then tmpPath else creds)
    else creds
  if goIsAbsPath credPath then credPath else absOf credPath

/-- `CLIExecutor.buildEnv` from `cli_executor.go` lines 136-207, as the
ordered list of override assignments appended after the ambient
`os.Environ()` snapshot; each entry is a `KEY=value` pair. -/
def buildEnv (cfg : Config) (tmpOk : Bool) (tmpPath : String)
    (absOf : String → String) : List (String × String) :=
  match cfg.DetectAuthMode with
  | AuthMode.authModeGeminiAPIKey => [("GEMINI_API_KEY", cfg.APIKey)]
  | AuthMode.authModeVertexAI =>
    [("GOOGLE_GENAI_USE_VERTEXAI", "true")]
    ++ (if cfg.GCPProject ≠ "" then [("GOOGLE_CLOUD_PROJECT", cfg.GCPProject)] else [])
    ++ (if cfg.GCPLocation ≠ "" then [("GOOGLE_CLOUD_LOCATION", cfg.GCPLocation)] else [])
    ++ (if cfg.APIKey ≠ "" then [("GOOGLE_API_KEY", cfg.APIKey)] else [])
    ++ (if cfg.GCPCredentials ≠ "" then
          [("GOOGLE_APPLICATION_CREDENTIALS",
            resolveCredPath tmpOk tmpPath absOf cfg.GCPCredentials)]
        else [])
  | AuthMode.authModeNone => []

/-- `CLIExecutor.buildArgs` from `cli_executor.go` lines 210-247. -/
def buildArgs (cfg : Config) (prompt : String) : List String :=
  ["--prompt", prompt]
  ++ (if cfg.OutputFormat ≠ "" then ["--output-format", cfg.OutputFormat] else [])
  ++ (if cfg.Model ≠ "" then ["--model", cfg.Model] else [])
  ++ (if cfg.Yolo then ["--yolo"] else [])
  ++ (if cfg.ApprovalMode ≠ "" then ["--approval-mode", cfg.ApprovalMode] else [])
  ++ (if cfg.IncludeDirs ≠ "" then ["--include-directories", cfg.IncludeDirs] else [])
  ++ (if cfg.Debug then ["--debug"] else [])

/-- `ExecutionResult` from `cli_executor.go`. -/
structure ExecutionResult where
  RawOutput : String := ""
  Response : Option CLIResponse := none
  ExitCode : Int := 0
deriving DecidableEq, Repr

/-- The failure kinds `Execute` can return: `ErrTimeout`,
`ErrCLIExecution` (wrapped with detail text) and the `ErrOutputParsing`
errors propagated from the parser. -/
inductive ExecError where
  | timeout
  | cliExecution (detail : String)
  | outputParsing (detail : String)
deriving DecidableEq, Repr

/-- Outcome of `cmd.Run()` and the captured buffers, the inputs that
decide the control flow of `Execute`: whether `Run` returned a non-nil
error, whether the context deadline was exceeded, whether the error was
an `*exec.ExitError` and with which code, and the captured stdout and
stderr. -/
structure RunOutcome where
  failed : Bool := false
  deadlineExceeded : Bool := false
  hasExitCode : Bool := false
  exitCode : Int := 0
  stdout : String := ""
  stderr : String := ""

/-- Detail text of the `ErrCLIExecution` returned for a failed run with
empty stdout; it carries the captured stderr. -/
def execFailDetail (stderr : String) : String :=
  "stderr: " ++ stderr

/-- Detail text of the `ErrCLIExecution` returned for an in-band error:
`fmt.Errorf` formats the error type and message. -/
def inbandDetail (e : CLIError) : String :=
  e.type ++ " - " ++ e.message

/-- Lines 124-132 of `cli_executor.go`: after parsing, a response
carrying a non-nil `Error` turns the call into an `ErrCLIExecution`
failure that still returns the result. -/
def execCheckInBand (result : ExecutionResult) :
    Option ExecutionResult × Option ExecError :=
  match result.Response with
  | some resp =>
    match resp.error with
    | some e => (some result, some (ExecError.cliExecution (inbandDetail e)))
    | none => (some result, none)
  | none => (some result, none)

/-- Lines 102-122 of `cli_executor.go`: parse `result.RawOutput` under
the configured output format, then run the in-band error check. -/
def execParsePhase (cfg : Config) (result : ExecutionResult) :
    Option ExecutionResult × Option ExecError :=
  if cfg.OutputFormat = "json" then
    match ParseJSON result.RawOutput with
    | Except.error (ParseErr.outputParsing d) =>
      (some result, some (ExecError.outputParsing d))
    | Except.ok resp => execCheckInBand { result with Response := some resp }
  else if cfg.OutputFormat = "stream-json" then
    execCheckInBand { result with Response := (ParseStreamJSON result.RawOutput).2.1 }
  else
    execCheckInBand { result with Response := some (ParseText result.RawOutput) }

/-- `CLIExecutor.Execute` from `cli_executor.go` lines 41-133, as a
function of the configuration and the run outcome.  Mirrors the source:
a failed run returns `ErrTimeout` on deadline expiry, otherwise records
the exit code, fails with `ErrCLIExecution` when stdout is empty
(`stdout.Len() > 0` is emptiness of the captured string), and otherwise
falls through to parsing like a successful run. -/
def Execute (cfg : Config) (run : RunOutcome) :
    Option ExecutionResult × Option ExecError :=
  if run.failed then
    if run.deadlineExceeded then (none, some ExecError.timeout)
    else
      let result : ExecutionResult :=
        { RawOutput := run.stdout, Response := none,
          ExitCode := if run.hasExitCode then run.exitCode else 0 }
      if run.stdout = "" then
        (none, some (ExecError.cliExecution (execFailDetail run.stderr)))
      else execParsePhase cfg result
  else
    execParsePhase cfg { RawOutput := run.stdout, Response := none, ExitCode := 0 }

/-- The parsed response `Execute` would attach for a given output
format, when parsing succeeds; used to state claims about the parse
phase uniformly over the three formats. -/
def parsedResponseFor (cfg : Config) (out : String) : Option CLIResponse :=
  if cfg.OutputFormat = "json" then
    match ParseJSON out with
    | Except.ok resp => some resp
    | Except.error _ => none
  else if cfg.OutputFormat = "stream-json" then (ParseStreamJSON out).2.1
  else some (ParseText out)

/-- `ModelPricing` from `plugin.go` lines 173-180, prices over `ℚ`. -/
structure ModelPricing where
  Name : String := ""
  InputPriceShort : ℚ := 0
  InputPriceLong : ℚ := 0
  OutputPriceShort : ℚ := 0
  OutputPriceLong : ℚ := 0
  LongContextThreshold : Int := 0
deriving DecidableEq, Repr

/-- `PricingTable` from `plugin.go` lines 183-262, in declaration
order. -/
def PricingTable : List (String × ModelPricing) :=
  [ ("gemini-3-pro-preview",
     { Name := "Gemini 3 Pro", InputPriceShort := 4, InputPriceLong := 4,
       OutputPriceShort := 12, OutputPriceLong := 12 }),
    ("gemini-3-flash-preview",
     { Name := "Gemini 3 Flash", InputPriceShort := 0.50, InputPriceLong := 0.50,
       OutputPriceShort := 3, OutputPriceLong := 3 }),
    ("gemini-2.5-pro",
     { Name := "Gemini 2.5 Pro", InputPriceShort := 1.25, InputPriceLong := 2.50,
       OutputPriceShort := 10, OutputPriceLong := 15, LongContextThreshold := 200000 }),
    ("gemini-2.5-flash",
     { Name := "Gemini 2.5 Flash", InputPriceShort := 0.30, InputPriceLong := 0.30,
       OutputPriceShort := 2.50, OutputPriceLong := 2.50 }),
    ("gemini-2.5-flash-lite",
     { Name := "Gemini 2.5 Flash-Lite", InputPriceShort := 0.10, InputPriceLong := 0.10,
       OutputPriceShort := 0.40, OutputPriceLong := 0.40 }),
    ("gemini-2.0-flash",
     { Name := "Gemini 2.0 Flash", InputPriceShort := 0.15, InputPriceLong := 0.15,
       OutputPriceShort := 0.60, OutputPriceLong := 0.60 }),
    ("gemini-2.0-flash-exp",
     { Name := "Gemini 2.0 Flash (Exp)", InputPriceShort := 0.15, InputPriceLong := 0.15,
       OutputPriceShort := 0.60, OutputPriceLong := 0.60 }),
    ("gemini-2.0-flash-lite",
     { Name := "Gemini 2.0 Flash-Lite", InputPriceShort := 0.075, InputPriceLong := 0.075,
       OutputPriceShort := 0.30, OutputPriceLong := 0.30 }),
    ("gemini-1.5-pro",
     { Name := "Gemini 1.5 Pro", InputPriceShort := 1.25, InputPriceLong := 1.25,
       OutputPriceShort := 5, OutputPriceLong := 5 }),
    ("gemini-1.5-flash",
     { Name := "Gemini 1.5 Flash", InputPriceShort := 0.075, InputPriceLong := 0.075,
       OutputPriceShort := 0.30, OutputPriceLong := 0.30 }) ]

/-- The partial-match loop of `calculateModelCost`: first table entry
whose lowercased key occurs in the lowercased model name.  The Go loop
iterates the map in unspecified order; the model fixes declaration
order, and no claim below depends on which simultaneous match wins. -/
def findPartialPricing : List (String × ModelPricing) → String → Option ModelPricing
  | [], _ => none
  | (k, p) :: rest, name =>
    if goContainsSub (goToLower name) (goToLower k) then some p
    else findPartialPricing rest name

/-- Pricing lookup of `calculateModelCost`: exact map lookup, then
partial match. -/
def lookupPricing (table : List (String × ModelPricing)) (name : String) :
    Option ModelPricing :=
  match table.lookup name with
  | some p => some p
  | none => findPartialPricing table name

/-- Default pricing used when no table entry matches
(`plugin.go` lines 378-384). -/
def defaultPricing : ModelPricing :=
  { Name := "", InputPriceShort := 1, OutputPriceShort := 5 }

/-- `calculateModelCost` from `plugin.go` lines 365-391, generalized
over the table it reads. -/
def calculateModelCostT (table : List (String × ModelPricing))
    (modelName : String) (tokens : TokenStats) : ℚ :=
  let pricing := (lookupPricing table modelName).getD defaultPricing
  (tokens.Prompt : ℚ) / 1000000 * pricing.InputPriceShort
  + (tokens.Candidates : ℚ) / 1000000 * pricing.OutputPriceShort
  + (tokens.Thoughts : ℚ) / 1000000 * pricing.OutputPriceShort

/-- `calculateModelCost` applied to the static `PricingTable`. -/
def calculateModelCost (modelName : String) (tokens : TokenStats) : ℚ :=
  calculateModelCostT PricingTable modelName tokens

/-- First transcript line of the streaming test fixture: the `init`
event. -/
def trLine1 : String :=
  "\x7b\"type\":\"init\",\"timestamp\":\"2025-01-01T00:00:00Z\",\"session_id\":\"abc123\",\"model\":\"gemini-2.5-pro\"\x7d"

/-- Second transcript line: the user `message` event. -/
def trLine2 : String :=
  "\x7b\"type\":\"message\",\"role\":\"user\",\"content\":\"Hello\",\"timestamp\":\"2025-01-01T00:00:01Z\"\x7d"

/-- Third transcript line: the non-delta assistant `message` event. -/
def trLine3 : String :=
  "\x7b\"type\":\"message\",\"role\":\"assistant\",\"content\":\"Hi there!\",\"timestamp\":\"2025-01-01T00:00:02Z\"\x7d"

/-- Fourth transcript line: the `result` event with its stats. -/
def trLine4 : String :=
  "\x7b\"type\":\"result\",\"status\":\"success\",\"stats\":\x7b\"models\":\x7b\x7d,\"tools\":\x7b\"totalCalls\":0\x7d,\"files\":\x7b\x7d\x7d,\"timestamp\":\"2025-01-01T00:00:03Z\"\x7d"

/-- The 4-line stream transcript `init` → `message(user)` →
`message(assistant, non-delta)` → `result`. -/
def transcript : String :=
  trLine1 ++ "\n" ++ trLine2 ++ "\n" ++ trLine3 ++ "\n" ++ trLine4

/-- Content of the assistant message in the transcript. -/
def assistantText : String := "Hi there!"

/-- Stats carried by the transcript's `result` event. -/
def resultStatsVal : CLIStats :=
  { Models := [], Tools := { TotalCalls := 0 }, Files := {} }

/-- Whitespace-only parser input from the spec's test list. -/
def wsInput : String := "   \n\t  "

/-- Non-JSON parser input from the spec's test list. -/
def notJsonInput : String := "not json"

/-- Valid single-document parser input from the spec's test list. -/
def helloInput : String := "\x7b\"response\":\"Hello, World!\",\"stats\":null\x7d"

/-- A single-document response carrying an in-band error record. -/
def errJsonInput : String :=
  "\x7b\"response\":\"\",\"error\":\x7b\"type\":\"AuthError\",\"message\":\"Invalid API key\",\"code\":401\x7d\x7d"

/-- A stream input on which every line fails to unmarshal. -/
def garbageStream : String := "not json\nalso \x7bnot\x7d json\n???"

/-- Claim C4: `DetectAuthMode` is the pure cascade over the three
credential fields — Vertex exactly when (APIKey and project) or
(credentials and project) are present, else the API-key mode exactly
when the key is present, else none; in particular credentials without a
project (and no key) yield none. -/
theorem detectAuthMode_characterization (c : Config) :
    c.DetectAuthMode =
      (if (c.APIKey ≠ "" ∧ c.GCPProject ≠ "") ∨ (c.GCPCredentials ≠ "" ∧ c.GCPProject ≠ "")
       then AuthMode.authModeVertexAI
       else if c.APIKey ≠ "" then AuthMode.authModeGeminiAPIKey
       else AuthMode.authModeNone)
    ∧ (c.GCPCredentials ≠ "" → c.GCPProject = "" → c.APIKey = "" →
        c.DetectAuthMode = AuthMode.authModeNone) := by
  constructor
  · unfold Config.DetectAuthMode
    split_ifs <;> tauto
  · intro h1 h2 h3
    unfold Config.DetectAuthMode
    split_ifs <;> tauto

/-- Witness configuration for C4: credentials alone, no project, no
key. -/
def cfgCredsOnly : Config := { GCPCredentials := "sa.json" }

/-- Witness for C4 at `cfgCredsOnly`. -/
theorem detectAuthMode_characterization_witness :
    cfgCredsOnly.DetectAuthMode = AuthMode.authModeNone :=
  (detectAuthMode_characterization cfgCredsOnly).2 (by decide) rfl rfl

/-- Emits `flag` exactly when `present` holds; spec-side combinator for
the Argument Builder contract. -/
def optFlag (present : Prop) [Decidable present] (flag : List String) : List String :=
  if present then flag else []

/-- Modelled from the spec: §4.2's argument vector — the prompt flag
first, then each optional flag in the fixed listed order, each emitted
only when its setting is non-empty or true, with no placeholders for
omitted settings. -/
def argsSpec (cfg : Config) (prompt : String) : List String :=
  List.flatten
    [ ["--prompt", prompt],
      optFlag (cfg.OutputFormat ≠ "") ["--output-format", cfg.OutputFormat],
      optFlag (cfg.Model ≠ "") ["--model", cfg.Model],
      optFlag (cfg.Yolo = true) ["--yolo"],
      optFlag (cfg.ApprovalMode ≠ "") ["--approval-mode", cfg.ApprovalMode],
      optFlag (cfg.IncludeDirs ≠ "") ["--include-directories", cfg.IncludeDirs],
      optFlag (cfg.Debug = true) ["--debug"] ]

/-- Claim C8: for every Settings the argument builder produces exactly
the spec's fixed-order vector — one prompt flag first, each optional
flag present iff its setting is non-empty or true, nothing else. -/
theorem buildArgs_fixed_order (cfg : Config) (prompt : String) :
    buildArgs cfg prompt = argsSpec cfg prompt
    ∧ (buildArgs cfg prompt).take 2 = ["--prompt", prompt] := by
  constructor
  · simp [buildArgs, argsSpec, optFlag]
  · rfl

/-- Claim C9: `ParseStreamJSON` is total and never returns a non-nil
error; even on an input where every line fails to parse it returns the
empty event list, no response and a nil error. -/
theorem parseStreamJSON_never_errors (output : String) :
    (ParseStreamJSON output).2.2 = none
    ∧ ParseStreamJSON garbageStream = ([], none, none) := by
  exact ⟨rfl, rfl⟩

/-- Model name of the pricing entry with input price 1.25 and output
price 10 per million tokens. -/
def g25pro : String := "gemini-2.5-pro"

/-- Token counts of the cost-estimation claim: prompt 1000, candidates
500, thoughts 100. -/
def c2Tokens : TokenStats :=
  { Prompt := 1000, Candidates := 500, Total := 1500, Cached := 0, Thoughts := 100, Tool := 0 }

/-- The `gemini-2.5-pro` entry of `PricingTable`. -/
def g25proEntry : ModelPricing :=
  { Name := "Gemini 2.5 Pro", InputPriceShort := 1.25, InputPriceLong := 2.50,
    OutputPriceShort := 10, OutputPriceLong := 15, LongContextThreshold := 200000 }

/-- The pricing lookup for `gemini-2.5-pro` is the exact-match table
entry. -/
theorem lookup_g25pro : lookupPricing PricingTable g25pro = some g25proEntry := rfl

/-- Counterexample to claim C2 as stated: the selected entry does have
input price 1.25 and output price 10, yet the computed cost is not
0.00625 dollars. -/
theorem calculateModelCost_claimed_value_refuted :
    ((lookupPricing PricingTable g25pro).map
        (fun p => (p.InputPriceShort, p.OutputPriceShort)) = some (1.25, 10))
    ∧ calculateModelCost g25pro c2Tokens ≠ (0.00625 : ℚ) := by
  constructor
  · rfl
  · simp only [calculateModelCost, calculateModelCostT, lookup_g25pro, Option.getD, c2Tokens]
    norm_num [g25proEntry]

/-- Claim C2 (amended): the computed cost is
`(1000*1.25 + 500*10 + 100*10)/1_000_000 = 0.00725` dollars — thought
tokens billed at the output rate, and the cached, tool and total token
counts never entering the formula. -/
theorem calculateModelCost_known_model_value (total cached tool : Int) :
    calculateModelCost g25pro
      { Prompt := 1000, Candidates := 500, Total := total,
        Cached := cached, Thoughts := 100, Tool := tool } = (0.00725 : ℚ) := by
  simp only [calculateModelCost, calculateModelCostT, lookup_g25pro, Option.getD]
  norm_num [g25proEntry]

/-- Overrides only the long-context fields of a pricing entry, leaving
the short-context prices untouched. -/
def setLongFields (fIn fOut : String → ℚ) (fTh : String → Int)
    (k : String) (p : ModelPricing) : ModelPricing :=
  { p with InputPriceLong := fIn k, OutputPriceLong := fOut k,
           LongContextThreshold := fTh k }

/-- Exact lookup commutes with a value transformation indexed by the
key. -/
theorem lookup_map_setLong (fIn fOut : String → ℚ) (fTh : String → Int)
    (table : List (String × ModelPricing)) (name : String) :
    (table.map (fun kp => (kp.1, setLongFields fIn fOut fTh kp.1 kp.2))).lookup name
      = (table.lookup name).map (setLongFields fIn fOut fTh name) := by
  induction table with
  | nil => rfl
  | cons kp rest ih =>
    simp only [List.map_cons, List.lookup]
    cases h : name == kp.1 with
    | true =>
      have : name = kp.1 := eq_of_beq h
      subst this
      rfl
    | false => exact ih

/-- Partial matching on the transformed table finds the transformed
version of some entry, or fails on both tables. -/
theorem findPartial_map_setLong (fIn fOut : String → ℚ) (fTh : String → Int)
    (table : List (String × ModelPricing)) (name : String) :
    (findPartialPricing
        (table.map (fun kp => (kp.1, setLongFields fIn fOut fTh kp.1 kp.2))) name = none
      ∧ findPartialPricing table name = none)
    ∨ (∃ k p, findPartialPricing table name = some p
        ∧ findPartialPricing
            (table.map (fun kp => (kp.1, setLongFields fIn fOut fTh kp.1 kp.2))) name
          = some (setLongFields fIn fOut fTh k p)) := by
  induction table with
  | nil => exact Or.inl ⟨rfl, rfl⟩
  | cons kp rest ih =>
    simp only [List.map_cons, findPartialPricing]
    by_cases h : goContainsSub (goToLower name) (goToLower kp.1) = true
    · exact Or.inr ⟨kp.1, kp.2, by simp [h], by simp [h]⟩
    · simp only [Bool.not_eq_true] at h
      simpa [h] using ih

/-- Claim C10: the cost computed from the table never depends on the
`InputPriceLong`, `OutputPriceLong` and `LongContextThreshold` fields —
overriding them arbitrarily leaves every cost unchanged — and even for
`gemini-2.5-pro` at 300000 prompt tokens, above the entry's 200000-token
long-context threshold, the short-context input price 1.25 is used. -/
theorem calculateModelCost_ignores_long_context_fields
    (fIn fOut : String → ℚ) (fTh : String → Int) (name : String) (tokens : TokenStats) :
    calculateModelCostT
        (PricingTable.map (fun kp => (kp.1, setLongFields fIn fOut fTh kp.1 kp.2)))
        name tokens
      = calculateModelCost name tokens
    ∧ calculateModelCost g25pro { Prompt := 300000 } = (0.375 : ℚ) := by
  constructor
  · have hshortIn : ∀ k p, (setLongFields fIn fOut fTh k p).InputPriceShort
        = p.InputPriceShort := fun _ _ => rfl
    have hshortOut : ∀ k p, (setLongFields fIn fOut fTh k p).OutputPriceShort
        = p.OutputPriceShort := fun _ _ => rfl
    unfold calculateModelCost calculateModelCostT lookupPricing
    rw [lookup_map_setLong]
    cases hex : PricingTable.lookup name with
    | some p => simp [hshortIn, hshortOut]
    | none =>
      simp only [Option.map_none]
      rcases findPartial_map_setLong fIn fOut fTh PricingTable name with
        ⟨h1, h2⟩ | ⟨k, p, h1, h2⟩
      · rw [h1, h2]
        simp
      · rw [h1, h2]
        simp [hshortIn, hshortOut]
  · simp only [calculateModelCost, calculateModelCostT, lookup_g25pro, Option.getD]
    norm_num [g25proEntry]

/-- The empty parser input. -/
def emptyInput : String := ""

/-- The parse result is an `ErrOutputParsing` failure. -/
def isOutputParsingErr (r : Except ParseErr CLIResponse) : Prop :=
  ∃ d, r = Except.error (ParseErr.outputParsing d)

/-- Claim C7: `ParseJSON` fails with an OutputParsing error on every
input that trims to empty and on every input the unmarshaller rejects —
in particular on the empty, whitespace-only and `not json` inputs — and
on the valid single document it succeeds with text `Hello, World!`. -/
theorem parseJSON_cases (s : String) :
    ((goTrimSpace s = "" ∨ jsonUnmarshalCLIResponse (goTrimSpace s) = none) →
      isOutputParsingErr (ParseJSON s))
    ∧ isOutputParsingErr (ParseJSON emptyInput)
    ∧ isOutputParsingErr (ParseJSON wsInput)
    ∧ isOutputParsingErr (ParseJSON notJsonInput)
    ∧ ParseJSON helloInput
        = Except.ok { response := "Hello, World!", stats := none, error := none } := by
  refine ⟨?_, ⟨"empty output", rfl⟩, ⟨"empty output", rfl⟩, ⟨"unmarshal error", rfl⟩, rfl⟩
  intro h
  by_cases he : goTrimSpace s = ""
  · exact ⟨"empty output", by simp [ParseJSON, he]⟩
  · have hu : jsonUnmarshalCLIResponse (goTrimSpace s) = none := by
      rcases h with h | h
      · exact absurd h he
      · exact h
    exact ⟨"unmarshal error", by simp [ParseJSON, he, hu]⟩

/-- Witness for C7 at the empty input. -/
theorem parseJSON_cases_witness : isOutputParsingErr (ParseJSON emptyInput) :=
  (parseJSON_cases emptyInput).1 (Or.inl (by decide))

/-- Environment variable name set to `true` in Vertex mode. -/
def kUseVertex : String := "GOOGLE_GENAI_USE_VERTEXAI"

/-- Environment variable name for the GCP project. -/
def kProject : String := "GOOGLE_CLOUD_PROJECT"

/-- Environment variable name for the GCP location. -/
def kLocation : String := "GOOGLE_CLOUD_LOCATION"

/-- Environment variable name for the Vertex API key. -/
def kGoogleKey : String := "GOOGLE_API_KEY"

/-- Environment variable name for the service-account credentials
path. -/
def kCredsVar : String := "GOOGLE_APPLICATION_CREDENTIALS"

/-- Temp-file path parameter used in the concrete evaluations. -/
def tmpPathC : String := "/tmp/gcp-credentials-1.json"

/-- In Vertex mode the project is non-empty and at least one of the API
key or the credentials is non-empty. -/
theorem vertex_mode_fields (c : Config)
    (h : c.DetectAuthMode = AuthMode.authModeVertexAI) :
    c.GCPProject ≠ "" ∧ (c.APIKey ≠ "" ∨ c.GCPCredentials ≠ "") := by
  unfold Config.DetectAuthMode at h
  split_ifs at h with h1 h2 h3 <;> simp_all

/-- A Vertex-mode configuration carrying both an API key and
service-account credentials, with an empty location. -/
def cfgBothCreds : Config :=
  { APIKey := "k", GCPProject := "p", GCPLocation := "", GCPCredentials := "/sa.json" }

/-- Counterexample to claim C3 as stated: a Vertex-mode configuration
whose environment overrides contain both `GOOGLE_API_KEY` and
`GOOGLE_APPLICATION_CREDENTIALS`, and no location variable. -/
theorem buildEnv_vertex_claim_refuted :
    cfgBothCreds.DetectAuthMode = AuthMode.authModeVertexAI
    ∧ (buildEnv cfgBothCreds true tmpPathC (fun s => s)).lookup kGoogleKey = some ("k")
    ∧ (buildEnv cfgBothCreds true tmpPathC (fun s => s)).lookup kCredsVar = some ("/sa.json")
    ∧ (buildEnv cfgBothCreds true tmpPathC (fun s => s)).lookup kLocation = none := by
  decide

/-- Claim C3 (amended): in Vertex mode the overrides always contain
`GOOGLE_GENAI_USE_VERTEXAI=true` and the project variable; the location
variable appears exactly when the location setting is non-empty;
`GOOGLE_API_KEY` appears exactly when the API key is non-empty and
`GOOGLE_APPLICATION_CREDENTIALS` exactly when the credentials are
non-empty — both appear when both are set — and at least one of the two
is always present. -/
theorem buildEnv_vertex_characterization (cfg : Config) (tmpOk : Bool)
    (tmp : String) (absOf : String → String)
    (h : cfg.DetectAuthMode = AuthMode.authModeVertexAI) :
    (buildEnv cfg tmpOk tmp absOf).lookup kUseVertex = some ("true")
    ∧ (buildEnv cfg tmpOk tmp absOf).lookup kProject = some cfg.GCPProject
    ∧ (buildEnv cfg tmpOk tmp absOf).lookup kLocation
        = (if cfg.GCPLocation = "" then none else some cfg.GCPLocation)
    ∧ (((buildEnv cfg tmpOk tmp absOf).lookup kGoogleKey).isSome ↔ cfg.APIKey ≠ "")
    ∧ (((buildEnv cfg tmpOk tmp absOf).lookup kCredsVar).isSome ↔ cfg.GCPCredentials ≠ "")
    ∧ (cfg.APIKey ≠ "" ∨ cfg.GCPCredentials ≠ "") := by
  obtain ⟨hp, hk⟩ := vertex_mode_fields cfg h
  simp only [buildEnv, h]
  by_cases hl : cfg.GCPLocation = "" <;>
    by_cases ha : cfg.APIKey = "" <;>
      by_cases hc : cfg.GCPCredentials = "" <;>
        simp_all +decide [List.lookup, kUseVertex, kProject, kLocation, kGoogleKey, kCredsVar]

/-- A Vertex-mode witness configuration using an API key. -/
def cfgVertexKey : Config :=
  { APIKey := "k", GCPProject := "p", GCPLocation := "us-central1" }

/-- Witness for the amended C3 at `cfgVertexKey`. -/
theorem buildEnv_vertex_characterization_witness :
    (buildEnv cfgVertexKey true tmpPathC (fun s => s)).lookup kUseVertex = some ("true") :=
  (buildEnv_vertex_characterization cfgVertexKey true tmpPathC (fun s => s) (by decide)).1

/-- When the configured format's parse of the raw output succeeds with
`resp`, the parse phase reduces to the in-band check on the result
carrying `resp`. -/
theorem execParsePhase_of_parsed (cfg : Config) (result : ExecutionResult)
    (resp : CLIResponse)
    (h : parsedResponseFor cfg result.RawOutput = some resp) :
    execParsePhase cfg result = execCheckInBand { result with Response := some resp } := by
  by_cases hj : cfg.OutputFormat = "json"
  · simp only [parsedResponseFor, hj, if_pos] at h
    simp only [execParsePhase, hj, if_pos]
    cases hPJ : ParseJSON result.RawOutput with
    | error err => rw [hPJ] at h; simp at h
    | ok r =>
      rw [hPJ] at h
      simp only [Option.some.injEq] at h
      subst h
      rfl
  · by_cases hs : cfg.OutputFormat = "stream-json"
    · simp +decide [parsedResponseFor, hj, hs] at h
      simp +decide [execParsePhase, hj, hs, h]
    · simp +decide [parsedResponseFor, hj, hs] at h
      simp +decide [execParsePhase, hj, hs, h]

/-- Claim C5: whenever the captured stdout parses (under the configured
format) into a response carrying a non-nil in-band error, `Execute`
fails with the `ErrCLIExecution` error carrying the error's type and
message, while still returning the parsed result — never an overall
success. -/
theorem execute_inband_error_fails (cfg : Config) (run : RunOutcome)
    (resp : CLIResponse) (e : CLIError)
    (hreach : run.failed = false ∨ (run.deadlineExceeded = false ∧ run.stdout ≠ ""))
    (hparse : parsedResponseFor cfg run.stdout = some resp)
    (herr : resp.error = some e) :
    (Execute cfg run).2 = some (ExecError.cliExecution (inbandDetail e))
    ∧ ∃ r, (Execute cfg run).1 = some r ∧ r.Response = some resp := by
  have hstep : ∀ result : ExecutionResult, result.RawOutput = run.stdout →
      execParsePhase cfg result = execCheckInBand { result with Response := some resp } := by
    intro result hr
    exact execParsePhase_of_parsed cfg result resp (by rw [hr]; exact hparse)
  have hphase : ∀ result : ExecutionResult, result.RawOutput = run.stdout →
      (execParsePhase cfg result).2 = some (ExecError.cliExecution (inbandDetail e))
      ∧ ∃ r, (execParsePhase cfg result).1 = some r ∧ r.Response = some resp := by
    intro result hr
    rw [hstep result hr]
    refine ⟨by simp [execCheckInBand, herr], ?_⟩
    exact ⟨{ result with Response := some resp }, by simp [execCheckInBand, herr], rfl⟩
  by_cases hf : run.failed
  · rcases hreach with hreach | ⟨hd, hstdout⟩
    · rw [hreach] at hf; exact absurd hf (by simp)
    · have hred : Execute cfg run
          = execParsePhase cfg
              { RawOutput := run.stdout, Response := none,
                ExitCode := if run.hasExitCode then run.exitCode else 0 } := by
        simp [Execute, hf, hd, hstdout]
      rw [hred]
      exact hphase _ rfl
  · have hred : Execute cfg run
        = execParsePhase cfg { RawOutput := run.stdout, Response := none, ExitCode := 0 } := by
      simp [Execute, hf]
    rw [hred]
    exact hphase _ rfl

/-- The configuration of the C5 witness: JSON output format. -/
def cfgJson : Config := { OutputFormat := "json" }

/-- The run outcome of the C5 witness: a clean exit whose stdout is a
JSON document carrying an in-band error record. -/
def runErrJson : RunOutcome := { stdout := errJsonInput }

/-- The in-band error of `errJsonInput`. -/
def authErrVal : CLIError := { type := "AuthError", message := "Invalid API key", code := 401 }

/-- The response `errJsonInput` parses to. -/
def respErrVal : CLIResponse := { response := "", stats := none, error := some authErrVal }

/-- Witness for C5 at the concrete in-band-error run. -/
theorem execute_inband_error_fails_witness :
    (Execute cfgJson runErrJson).2
      = some (ExecError.cliExecution (inbandDetail authErrVal)) :=
  (execute_inband_error_fails cfgJson runErrJson respErrVal authErrVal
    (Or.inl rfl) (by decide) rfl).1

/-- Claim C6: for a failed run that did not time out, an empty stdout
makes `Execute` fail immediately with `ErrCLIExecution` carrying the
captured stderr (for every configuration, independent of any parser),
while a non-empty stdout makes it proceed to the parse phase under the
configured output format. -/
theorem execute_nonzero_exit_paths (cfg : Config) (run : RunOutcome)
    (hf : run.failed = true) (hd : run.deadlineExceeded = false) :
    (run.stdout = "" →
      Execute cfg run = (none, some (ExecError.cliExecution (execFailDetail run.stderr))))
    ∧ (run.stdout ≠ "" →
      Execute cfg run
        = execParsePhase cfg
            { RawOutput := run.stdout, Response := none,
              ExitCode := if run.hasExitCode then run.exitCode else 0 }) := by
  constructor <;> intro hs <;> simp [Execute, hf, hd, hs]

/-- The run outcome of the C6 witness: non-zero exit, empty stdout. -/
def runFailEmpty : RunOutcome := { failed := true, hasExitCode := true, exitCode := 1, stderr := "boom" }

/-- Witness for C6 at the concrete failed run. -/
theorem execute_nonzero_exit_paths_witness :
    Execute cfgJson runFailEmpty
      = (none, some (ExecError.cliExecution (execFailDetail ("boom")))) :=
  (execute_nonzero_exit_paths cfgJson runFailEmpty rfl rfl).1 rfl

set_option maxRecDepth 8192 in
/-- Claim C1, evaluated at the concrete 4-line transcript
`init` → `message(user)` → `message(assistant, non-delta)` → `result`:
the parser does return exactly 4 events in input order with a nil error
and a non-nil reconstructed Response whose Stats equals the `result`
event's stats — but the Response text is empty rather than the
assistant message's content `Hi there!`, because the later `result`
event builds a fresh response that discards the previously extracted
text. -/
theorem parseStreamJSON_result_overwrites_assistant_text :
    (ParseStreamJSON transcript).1.map (fun e => (e.type, e.role, e.delta)) =
      [("init", "", false), ("message", "user", false),
       ("message", "assistant", false), ("result", "", false)]
    ∧ (ParseStreamJSON transcript).1.length = 4
    ∧ (ParseStreamJSON transcript).2.2 = none
    ∧ ((ParseStreamJSON transcript).1.get? 2).map StreamEvent.content = some assistantText
    ∧ (ParseStreamJSON transcript).2.1
        = some { response := "", stats := some resultStatsVal, error := none }
    ∧ assistantText ≠ "" := by
  exact ⟨rfl, rfl, rfl, rfl, rfl, by decide⟩

/-- Witness for the amended C2 at zero total, cached and tool counts. -/
theorem calculateModelCost_known_model_value_witness :
    calculateModelCost g25pro
      { Prompt := 1000, Candidates := 500, Total := 0,
        Cached := 0, Thoughts := 100, Tool := 0 } = (0.00725 : ℚ) :=
  calculateModelCost_known_model_value 0 0 0

/-- Configuration of the C8 witness. -/
def cfgArgsW : Config :=
  { OutputFormat := "json", Model := "gemini-2.5-pro", Yolo := true }

/-- Prompt of the C8 witness. -/
def promptW : String := "review this"

/-- Witness for C8 at a concrete configuration. -/
theorem buildArgs_fixed_order_witness :
    buildArgs cfgArgsW promptW = argsSpec cfgArgsW promptW
    ∧ (buildArgs cfgArgsW promptW).take 2 = ["--prompt", promptW] :=
  buildArgs_fixed_order cfgArgsW promptW

/-- Witness for C9 at the transcript input. -/
theorem parseStreamJSON_never_errors_witness :
    (ParseStreamJSON transcript).2.2 = none
    ∧ ParseStreamJSON garbageStream = ([], none, none) :=
  parseStreamJSON_never_errors transcript

/-- Witness for C10 at concretely overridden long-context fields. -/
theorem calculateModelCost_ignores_long_fields_witness :
    calculateModelCostT
        (PricingTable.map (fun kp =>
          (kp.1, setLongFields (fun _ => 0) (fun _ => 0) (fun _ => 0) kp.1 kp.2)))
        g25pro c2Tokens
      = calculateModelCost g25pro c2Tokens
    ∧ calculateModelCost g25pro { Prompt := 300000 } = (0.375 : ℚ) :=
  calculateModelCost_ignores_long_context_fields
    (fun _ => 0) (fun _ => 0) (fun _ => 0) g25pro c2Tokens
